import Mathlib

/-!
Verification of the PCx86 SerialPort component (an NS8250A-class UART emulation).

The definitions below are a shallow embedding of the SerialPort device core:
its register bank, receive queue, interrupt arbitration, transmit path,
modem-control crossover, connection resolution and snapshot save/restore.
JavaScript 32-bit bitwise arithmetic is modelled on `Nat` (all register values
involved stay far below `2^31`, where the two agree); the JS bitwise-NOT
`~m` is modelled as `0xFFFFFFFF ^^^ m`.
-/

set_option maxRecDepth 8000

/-- JS 32-bit bitwise complement of a small mask, as used by `x & ~m`. -/
def jsNot (m : Nat) : Nat := 0xFFFFFFFF ^^^ m

namespace IER

/-- Interrupt Enable Register: receive-data-available enable bit. -/
def RBR_AVAIL : Nat := 0x01

/-- Interrupt Enable Register: transmit-holding-empty enable bit. -/
def THR_EMPTY : Nat := 0x02

/-- Interrupt Enable Register: line-status-delta enable bit. -/
def LSR_DELTA : Nat := 0x04

/-- Interrupt Enable Register: modem-status-delta enable bit. -/
def MSR_DELTA : Nat := 0x08

end IER

namespace IIR

/-- Interrupt ID Register: "no interrupt pending" bit. -/
def NO_INT : Nat := 0x01

/-- Interrupt ID Register: receiver-data-available condition code. -/
def INT_RBR : Nat := 0x04

/-- Interrupt ID Register: modem-status condition code (lowest priority). -/
def INT_MSR : Nat := 0x00

/-- Interrupt ID Register: mask of the condition-code bits. -/
def INT_BITS : Nat := 0x06

end IIR

namespace LCR

/-- Line Control Register: Divisor Latch Access Bit. -/
def DLAB : Nat := 0x80

end LCR

namespace MCR

/-- Modem Control Register: Data Terminal Ready. -/
def DTR : Nat := 0x01

/-- Modem Control Register: Request To Send. -/
def RTS : Nat := 0x02

end MCR

namespace LSR

/-- Line Status Register: Data Ready. -/
def DR : Nat := 0x01

/-- Line Status Register: Transmitter Holding Register Empty. -/
def THRE : Nat := 0x20

/-- Line Status Register: Transmitter Shift Register Empty. -/
def TSRE : Nat := 0x40

end LSR

namespace MSR

/-- Modem Status Register: delta Clear To Send. -/
def DCTS : Nat := 0x01

/-- Modem Status Register: delta Data Set Ready. -/
def DDSR : Nat := 0x02

/-- Modem Status Register: Trailing Edge Ring Indicator. -/
def TERI : Nat := 0x04

/-- Modem Status Register: delta Received Line Signal Detector. -/
def DRLSD : Nat := 0x08

/-- Modem Status Register: Clear To Send level. -/
def CTS : Nat := 0x10

/-- Modem Status Register: Data Set Ready level. -/
def DSR : Nat := 0x20

end MSR

/-- Default Divisor Latch value selected on reset (300 baud). -/
def DL_DEFAULT : Nat := 0x180

/-- Initial MSR value set in the constructor: `SerialPort.MSR.CTS | SerialPort.MSR.DSR`. -/
def bMSRInit : Nat := MSR.CTS ||| MSR.DSR

/-- RS-232 control-line masks used by the inter-machine connection protocol
(`RS232.RTS.MASK` etc. come from the shared defines module, outside this core;
the mask values are kept abstract since only the mapping built from them
matters). -/
structure RS232M where
  rts : Nat
  cts : Nat
  dsr : Nat
  cd : Nat
  dtr : Nat
deriving DecidableEq, Repr

/-- Request made of the interrupt controller by `updateIRR`:
`chipset.setIRR(nIRQ, 100)` or `chipset.clearIRR(nIRQ)`. -/
inductive IRRAction where
  | setIRR (delay : Nat) : IRRAction
  | clearIRR : IRRAction
deriving DecidableEq, Repr

/-- Mutable state of one SerialPort instance: the register bank
(`bRBR` … `bMSR`, plus the 16-bit divisor latch `wDL`), the software receive
queue `abReceive`, and the connection fields set by `initConnection` /
`attachMouse` (a peer reference and the two captured capabilities, held
abstractly as identifiers). -/
structure SPState where
  bRBR : Nat
  bTHR : Nat
  wDL : Nat
  bIER : Nat
  bIIR : Nat
  bLCR : Nat
  bMCR : Nat
  bLSR : Nat
  bMSR : Nat
  abReceive : List Nat
  connection : Option Nat
  sendData : Option Nat
  updateStatus : Option Nat
  fNullModem : Bool
deriving DecidableEq, Repr

/-- Hardware-reset state: `initState()` run with no snapshot data, together
with the constructor's connection defaults. -/
def resetState : SPState :=
  { bRBR := 0
    bTHR := 0
    wDL := DL_DEFAULT
    bIER := 0
    bIIR := IIR.NO_INT
    bLCR := 0
    bMCR := 0
    bLSR := LSR.THRE ||| LSR.TSRE
    bMSR := bMSRInit
    abReceive := []
    connection := none
    sendData := none
    updateStatus := none
    fNullModem := true }

/-- Embedding of `SerialPort.prototype.updateIRR`: recompute the pending-interrupt state.
Receive-data-available (`LSR.DR` and `IER.RBR_AVAIL`) is checked first; next
the modem-status condition, which the code gates on `MSR.DCTS | MSR.DDSR`
only.  On a match the condition code replaces `IIR`'s low bits and the
interrupt line is asserted with the fixed 100-instruction delay; otherwise
`IIR.NO_INT` is set and the line is cleared immediately. -/
def updateIRR (s : SPState) : SPState × IRRAction :=
  let cond : Option Nat :=
    if s.bLSR &&& LSR.DR ≠ 0 ∧ s.bIER &&& IER.RBR_AVAIL ≠ 0 then
      some IIR.INT_RBR
    else if s.bMSR &&& (MSR.DCTS ||| MSR.DDSR) ≠ 0 ∧ s.bIER &&& IER.MSR_DELTA ≠ 0 then
      some IIR.INT_MSR
    else
      none
  match cond with
  | some code =>
      ({ s with bIIR := (s.bIIR &&& jsNot (IIR.NO_INT ||| IIR.INT_BITS)) ||| code },
       IRRAction.setIRR 100)
  | none =>
      ({ s with bIIR := s.bIIR ||| IIR.NO_INT }, IRRAction.clearIRR)

/-- Embedding of `SerialPort.prototype.advanceRBR`: when the receive queue is non-empty and
`LSR.DR` is clear, shift the head of the queue into `RBR` and set `LSR.DR`;
always recompute the interrupt state afterwards. -/
def advanceRBR (s : SPState) : SPState × IRRAction :=
  let s' :=
    match s.abReceive with
    | b :: rest =>
        if s.bLSR &&& LSR.DR = 0 then
          { s with bRBR := b, abReceive := rest, bLSR := s.bLSR ||| LSR.DR }
        else s
    | [] => s
  updateIRR s'

/-- Embedding of `SerialPort.prototype.inRBR`: a read of port offset 0 returns the divisor
latch low byte when `LCR.DLAB` is set, else `RBR`; as a side effect it clears
`LSR.DR` and then attempts to stage the next queued byte. -/
def inRBR (s : SPState) : Nat × SPState × IRRAction :=
  let b := if s.bLCR &&& LCR.DLAB ≠ 0 then s.wDL &&& 0xFF else s.bRBR
  let s1 := { s with bLSR := s.bLSR &&& jsNot LSR.DR }
  let r := advanceRBR s1
  (b, r.1, r.2)

/-- Embedding of `SerialPort.prototype.inIER`: a read of port offset 1 returns the divisor
latch high byte when `LCR.DLAB` is set, else `IER`; no side effect. -/
def inIER (s : SPState) : Nat :=
  if s.bLCR &&& LCR.DLAB ≠ 0 then s.wDL >>> 8 else s.bIER

/-- Embedding of `SerialPort.prototype.inMSR`: a read of port offset 6 returns `MSR` and,
as a side effect, clears its `DCTS` and `DDSR` bits. -/
def inMSR (s : SPState) : Nat × SPState :=
  (s.bMSR, { s with bMSR := s.bMSR &&& jsNot (MSR.DCTS ||| MSR.DDSR) })

/-- Embedding of `SerialPort.prototype.outTHR`: a write to port offset 0 updates the
divisor latch low byte when `LCR.DLAB` is set; otherwise it stores the byte
in `THR`, clears `LSR.THRE`/`TSRE`, hands the byte to `transmitByte`, and
re-sets both flags when the sink reports synchronous delivery.  The second
component records the bytes handed to the transmit sink; `accepts` is the
sink's acceptance result. -/
def outTHR (accepts : Nat → Bool) (s : SPState) (bOut : Nat) : SPState × List Nat :=
  if s.bLCR &&& LCR.DLAB ≠ 0 then
    ({ s with wDL := (s.wDL &&& jsNot 0xFF) ||| bOut }, [])
  else
    let s1 := { s with bTHR := bOut, bLSR := s.bLSR &&& jsNot (LSR.THRE ||| LSR.TSRE) }
    if accepts bOut then
      ({ s1 with bLSR := s1.bLSR ||| (LSR.THRE ||| LSR.TSRE) }, [bOut])
    else
      (s1, [bOut])

/-- Embedding of `SerialPort.prototype.outIER`: a write to port offset 1 updates the
divisor latch high byte when `LCR.DLAB` is set, else `IER`. -/
def outIER (s : SPState) (bOut : Nat) : SPState :=
  if s.bLCR &&& LCR.DLAB ≠ 0 then
    { s with wDL := (s.wDL &&& 0xFF) ||| (bOut <<< 8) }
  else
    { s with bIER := bOut }

/-- Embedding of `SerialPort.prototype.outLCR`: a write to port offset 3 stores the byte. -/
def outLCR (s : SPState) (bOut : Nat) : SPState :=
  { s with bLCR := bOut }

/-- Embedding of `SerialPort.prototype.outMCR`: a write to port offset 4 stores the byte;
when the DTR or RTS bit changed and `updateStatus` is present, the peer is
notified with the translated control-line bitmask (null-modem crossover when
`fNullModem`, straight-through otherwise).  The second component is the
notification delivered to the peer, if any. -/
def outMCR (m : RS232M) (s : SPState) (bOut : Nat) : SPState × Option Nat :=
  let delta := bOut ^^^ s.bMCR
  let s' := { s with bMCR := bOut }
  if delta &&& (MCR.DTR ||| MCR.RTS) ≠ 0 then
    if s.updateStatus.isSome then
      let pins :=
        if s.fNullModem then
          (if bOut &&& MCR.RTS ≠ 0 then m.cts else 0) |||
          (if bOut &&& MCR.DTR ≠ 0 then m.dsr ||| m.cd else 0)
        else
          (if bOut &&& MCR.RTS ≠ 0 then m.rts else 0) |||
          (if bOut &&& MCR.DTR ≠ 0 then m.dtr else 0)
      (s', some pins)
    else (s', none)
  else (s', none)

/-- The polymorphic argument of `receiveData`: a single byte, a text string
(each character pushed by char code), or an array of bytes. -/
inductive RData where
  | byte (b : Nat) : RData
  | str (cs : List Nat) : RData
  | arr (bs : List Nat) : RData
deriving DecidableEq, Repr

/-- Embedding of `SerialPort.prototype.receiveData`: push the inbound data onto the
receive queue, attempt to stage a byte, and report acceptance (always true,
since everything is buffered). -/
def receiveData (d : RData) (s : SPState) : SPState × IRRAction × Bool :=
  let s1 :=
    match d with
    | RData.byte b => { s with abReceive := s.abReceive ++ [b] }
    | RData.str cs => { s with abReceive := s.abReceive ++ cs }
    | RData.arr bs => { s with abReceive := s.abReceive ++ bs }
  let r := advanceRBR s1
  (r.1, r.2, true)

/-- Embedding of `SerialPort.prototype.receiveStatus`: recompute the CTS and DSR level
bits of `MSR` from the supplied pins, setting the matching delta bit for each
level that is raised, and recompute the interrupt state when `MSR` changed. -/
def receiveStatus (m : RS232M) (pins : Nat) (s : SPState) : SPState × Option IRRAction :=
  let bMSROld := s.bMSR
  let msr1 := s.bMSR &&& jsNot (MSR.CTS ||| MSR.DSR)
  let msr2 := if pins &&& m.cts ≠ 0 then msr1 ||| (MSR.CTS ||| MSR.DCTS) else msr1
  let msr3 := if pins &&& m.dsr ≠ 0 then msr2 ||| (MSR.DSR ||| MSR.DDSR) else msr2
  let s' := { s with bMSR := msr3 }
  if bMSROld ≠ msr3 then
    let r := updateIRR s'
    (r.1, some r.2)
  else
    (s', none)

/-- Exported capabilities of a prospective peer component, as found on its
`exports` object: whether a `connect` entry exists, and the `receiveData` /
`receiveStatus` capability references (held abstractly). -/
structure PeerExports where
  hasConnect : Bool
  receiveData : Option Nat
  receiveStatus : Option Nat
deriving DecidableEq, Repr

/-- A component found in the process-wide registry: its identity and its
optional `exports` object. -/
structure Peer where
  pid : Nat
  exports : Option PeerExports
deriving DecidableEq, Repr

/-- Environment consulted by `initConnection`: the machine's `connection`
parameter, this instance's component identifier, and the component registry
(`Component.getComponentByID`). -/
structure ConnEnv where
  sConnection : Option String
  idComponent : String
  lookup : String → Option Peer

/-- Embedding of `SerialPort.prototype.initConnection`: resolve the machine's connection
descriptor `"{sourcePort}->{targetMachine}.{targetPort}"` to a peer and
capture its `receiveData`/`receiveStatus` capabilities as `sendData` /
`updateStatus`.  A no-op when a connection already exists.  (The call into
the target's own `connect` export mutates only the target and is not part of
this instance's state.) -/
def initConnection (env : ConnEnv) (fNullModem : Bool) (s : SPState) : SPState :=
  if s.connection.isSome then s
  else
    match env.sConnection with
    | none => s
    | some sConn =>
        match sConn.splitOn "->" with
        | [p0, p1] =>
            if p0.trim ≠ env.idComponent then s
            else
              match env.lookup p1.trim with
              | none => s
              | some peer =>
                  let s1 := { s with connection := some peer.pid }
                  match peer.exports with
                  | none => s1
                  | some ex =>
                      let s2 := { s1 with sendData := ex.receiveData }
                      match ex.receiveData with
                      | none => s2
                      | some _ =>
                          { s2 with fNullModem := fNullModem, updateStatus := ex.receiveStatus }
        | _ => s

/-- Configuration of the bound-control echo surface: `tabSize` (0 when no tab
conversion is configured) and `charBOL` (0 when no beginning-of-line filler
is configured). -/
structure EchoCfg where
  tabSize : Nat
  charBOL : Nat
deriving DecidableEq, Repr

/-- Mutable state of the echo surface: the control's accumulated text
(character codes) and the logical column counter. -/
structure EchoState where
  value : List Nat
  iLogicalCol : Nat
deriving DecidableEq, Repr

/-- Modelled from the spec: `str.toASCIICode`, from the shared string library
which is not part of this core.  Per the spec's description of the echo
surface, a tab transmitted with no nonzero tab width configured is dropped
(produces no visible output), so the tab byte maps to no characters; any
other byte maps to its own character code. -/
def toASCIICode_spec (b : Nat) : List Nat :=
  if b = 0x09 then [] else [b]

/-- The bound-control (echo surface) branch of
`SerialPort.prototype.transmitByte`: carriage return resets the logical
column; backspace removes the last character and decrements the column; any
other byte is rendered via `toASCII` (with `str.pad` producing spaces for an
expanded tab), prefixed with the beginning-of-line filler when configured and
at column zero, appended to the control, and the column advanced. -/
def transmitEcho (toASCII : Nat → List Nat) (cfg : EchoCfg) (st : EchoState) (b : Nat) :
    EchoState :=
  if b = 0x0D then
    { st with iLogicalCol := 0 }
  else if b = 0x08 then
    { value := st.value.dropLast, iLogicalCol := st.iLogicalCol - 1 }
  else
    let s := toASCII b
    let nChars := s.length
    let nChars := if b < 0x20 ∧ nChars = 1 then 0 else nChars
    let sn : List Nat × Nat :=
      if b = 0x09 then
        let tabSize := if cfg.tabSize = 0 then 8 else cfg.tabSize
        let n := tabSize - st.iLogicalCol % tabSize
        (if cfg.tabSize ≠ 0 then List.replicate n 0x20 else s, n)
      else (s, nChars)
    let s' := if cfg.charBOL ≠ 0 ∧ st.iLogicalCol = 0 ∧ sn.2 ≠ 0 then cfg.charBOL :: sn.1 else sn.1
    { value := st.value ++ s', iLogicalCol := st.iLogicalCol + sn.2 }

/-- A JavaScript value as it appears in a snapshot buffer: a number, an array
of numbers (the receive queue), or `undefined` (what indexing past the end of
a buffer yields). -/
inductive JSVal where
  | undef : JSVal
  | num (n : Nat) : JSVal
  | arr (l : List Nat) : JSVal
deriving DecidableEq, Repr

/-- The ten fields assigned by `initState`, holding whatever JavaScript
values the snapshot buffer supplied (or the reset defaults). -/
structure RegsJS where
  bRBR : JSVal
  bTHR : JSVal
  wDL : JSVal
  bIER : JSVal
  bIIR : JSVal
  bLCR : JSVal
  bMCR : JSVal
  bLSR : JSVal
  bMSR : JSVal
  abReceive : JSVal
deriving DecidableEq, Repr

/-- Embedding of `SerialPort.prototype.initState`: when no data is supplied, build the
reset defaults; then assign the ten fields from consecutive entries of the
buffer (an entry past the end of the buffer is `undefined`) and report
success unconditionally. -/
def initStateJS (data : Option (List JSVal)) : RegsJS × Bool :=
  let d :=
    match data with
    | none =>
        [JSVal.num 0, JSVal.num 0, JSVal.num DL_DEFAULT, JSVal.num 0, JSVal.num IIR.NO_INT,
         JSVal.num 0, JSVal.num 0, JSVal.num (LSR.THRE ||| LSR.TSRE), JSVal.num bMSRInit,
         JSVal.arr []]
    | some d => d
  ({ bRBR := d.getD 0 JSVal.undef
     bTHR := d.getD 1 JSVal.undef
     wDL := d.getD 2 JSVal.undef
     bIER := d.getD 3 JSVal.undef
     bIIR := d.getD 4 JSVal.undef
     bLCR := d.getD 5 JSVal.undef
     bMCR := d.getD 6 JSVal.undef
     bLSR := d.getD 7 JSVal.undef
     bMSR := d.getD 8 JSVal.undef
     abReceive := d.getD 9 JSVal.undef }, true)

/-- Embedding of `SerialPort.prototype.saveRegisters` applied to the fields held by a
restored device. -/
def saveRegistersJS (r : RegsJS) : List JSVal :=
  [r.bRBR, r.bTHR, r.wDL, r.bIER, r.bIIR, r.bLCR, r.bMCR, r.bLSR, r.bMSR, r.abReceive]

/-- Embedding of `SerialPort.prototype.saveRegisters`: serialize a live device's register
bank and receive queue as the ordered snapshot sequence. -/
def saveRegisters (s : SPState) : List JSVal :=
  [JSVal.num s.bRBR, JSVal.num s.bTHR, JSVal.num s.wDL, JSVal.num s.bIER, JSVal.num s.bIIR,
   JSVal.num s.bLCR, JSVal.num s.bMCR, JSVal.num s.bLSR, JSVal.num s.bMSR,
   JSVal.arr s.abReceive]

/-- Embedding of `SerialPort.prototype.restore`: `initState(data[0])`, where a missing
entry 0 is `undefined` and makes `initState` fall back to the reset
defaults. -/
def restoreJS (data : List (List JSVal)) : RegsJS × Bool :=
  initStateJS data[0]?

/-- All MCR writes of a list applied in order, collecting the control-line
notifications delivered to the peer. -/
def runMCRWrites (m : RS232M) (s : SPState) (ws : List Nat) : SPState × List Nat :=
  match ws with
  | [] => (s, [])
  | w :: rest =>
      let r := outMCR m s w
      let r' := runMCRWrites m r.1 rest
      (r'.1, (match r.2 with | some p => [p] | none => []) ++ r'.2)

/-- The crossover (null-modem) and straight-through control-line mappings as
the spec states them: under null modem, local RTS maps to the peer's
clear-to-send mask and local DTR to the peer's data-set-ready plus
carrier-detect masks; otherwise RTS maps to RTS and DTR to DTR. -/
def claimPins (m : RS232M) (fNull : Bool) (w : Nat) : Nat :=
  if fNull then
    (if w &&& MCR.RTS ≠ 0 then m.cts else 0) |||
    (if w &&& MCR.DTR ≠ 0 then m.dsr ||| m.cd else 0)
  else
    (if w &&& MCR.RTS ≠ 0 then m.rts else 0) |||
    (if w &&& MCR.DTR ≠ 0 then m.dtr else 0)

/-- The notification sequence the spec predicts for a sequence of MCR writes:
a write whose DTR or RTS bit differs from the current MCR value notifies the
peer with the mapped pins; an unchanged write notifies nobody. -/
def claimNotifications (m : RS232M) (fNull : Bool) (mcr : Nat) (ws : List Nat) : List Nat :=
  match ws with
  | [] => []
  | w :: rest =>
      if (w ^^^ mcr) &&& (MCR.DTR ||| MCR.RTS) ≠ 0 then
        claimPins m fNull w :: claimNotifications m fNull w rest
      else
        claimNotifications m fNull w rest

/-- States reachable from hardware reset by the device's externally
triggerable operations, snapshot restore excluded. -/
inductive Reachable : SPState → Prop where
  | reset : Reachable resetState
  | stepInRBR {s : SPState} : Reachable s → Reachable (inRBR s).2.1
  | stepInMSR {s : SPState} : Reachable s → Reachable (inMSR s).2
  | stepOutTHR {s : SPState} (accepts : Nat → Bool) (b : Nat) :
      Reachable s → Reachable (outTHR accepts s b).1
  | stepOutIER {s : SPState} (b : Nat) : Reachable s → Reachable (outIER s b)
  | stepOutLCR {s : SPState} (b : Nat) : Reachable s → Reachable (outLCR s b)
  | stepOutMCR {s : SPState} (m : RS232M) (b : Nat) :
      Reachable s → Reachable (outMCR m s b).1
  | stepReceiveData {s : SPState} (d : RData) : Reachable s → Reachable (receiveData d s).1
  | stepReceiveStatus {s : SPState} (m : RS232M) (pins : Nat) :
      Reachable s → Reachable (receiveStatus m pins s).1
  | stepInitConnection {s : SPState} (env : ConnEnv) (f : Bool) :
      Reachable s → Reachable (initConnection env f s)
  | stepAdvanceRBR {s : SPState} : Reachable s → Reachable (advanceRBR s).1

theorem land_or_distrib (a b c : Nat) : (a ||| b) &&& c = (a &&& c) ||| (b &&& c) := by
  refine Nat.eq_of_testBit_eq fun i => ?_
  rw [Nat.testBit_and, Nat.testBit_or, Nat.testBit_or, Nat.testBit_and, Nat.testBit_and]
  exact (Bool.and_or_distrib_right _ _ _).symm ▸ rfl

theorem testBit_eq_false_of_lt (x k i : Nat) (hx : x < 2 ^ k) (hk : k ≤ i) :
    x.testBit i = false := by
  apply Nat.testBit_lt_two_pow
  calc x < 2 ^ k := hx
    _ ≤ 2 ^ i := Nat.pow_le_pow_right (by norm_num) hk

theorem testBit_jsNot_true (m k i : Nat) (hm : m < 2 ^ k) (hk : k ≤ i) (h32 : i < 32) :
    (jsNot m).testBit i = true := by
  unfold jsNot
  rw [Nat.testBit_xor, testBit_eq_false_of_lt m k i hm hk]
  have h : (0xFFFFFFFF : Nat) = 2 ^ 32 - 1 := by norm_num
  rw [h, Nat.testBit_two_pow_sub_one]
  simp [h32]

theorem testBit_land_jsNot (x m k i : Nat) (hx : x < 2 ^ 32) (hm : m < 2 ^ k) (hk : k ≤ i) :
    (x &&& jsNot m).testBit i = x.testBit i := by
  rw [Nat.testBit_and]
  by_cases h32 : i < 32
  · rw [testBit_jsNot_true m k i hm hk h32, Bool.and_true]
  · rw [testBit_eq_false_of_lt x 32 i hx (by omega), Bool.false_and]

theorem land_jsNot_or_shiftRight (x m b k : Nat) (hx : x < 2 ^ 32) (hm : m < 2 ^ k)
    (hb : b < 2 ^ k) : ((x &&& jsNot m) ||| b) >>> k = x >>> k := by
  apply Nat.eq_of_testBit_eq; intro i
  rw [Nat.testBit_shiftRight, Nat.testBit_shiftRight, Nat.testBit_or,
    testBit_land_jsNot x m k (k + i) hx hm (by omega),
    testBit_eq_false_of_lt b k (k + i) hb (by omega), Bool.or_false]

theorem land_jsNot_shiftRight (x m k : Nat) (hx : x < 2 ^ 32) (hm : m < 2 ^ k) :
    (x &&& jsNot m) >>> k = x >>> k := by
  apply Nat.eq_of_testBit_eq; intro i
  rw [Nat.testBit_shiftRight, Nat.testBit_shiftRight,
    testBit_land_jsNot x m k (k + i) hx hm (by omega)]

theorem land_jsNot_land (x m c : Nat) (h : jsNot m &&& c = 0) : (x &&& jsNot m) &&& c = 0 := by
  rw [Nat.and_assoc, h, Nat.and_zero]

theorem land_jsNot_keep (x m c : Nat) (h : jsNot m &&& c = c) : (x &&& jsNot m) &&& c = x &&& c := by
  rw [Nat.and_assoc, h]

theorem iir_bits_of_code (x c : Nat) (hc : c &&& 0x07 = c) :
    ((x &&& jsNot (IIR.NO_INT ||| IIR.INT_BITS)) ||| c) &&& (IIR.NO_INT ||| IIR.INT_BITS) = c := by
  have h7 : IIR.NO_INT ||| IIR.INT_BITS = 7 := by decide
  rw [h7] at *
  rw [land_or_distrib, land_jsNot_land x 7 7 (by decide), Nat.zero_or, hc]

theorem lor_one_and_one (x : Nat) : (x ||| 1) &&& 1 = 1 := by
  rw [land_or_distrib, Nat.and_one_is_mod]
  rcases Nat.mod_two_eq_zero_or_one x with h | h <;> rw [h] <;> rfl

/-- C1 (amended): after `updateIRR`, if `LSR.DR` and the receive-available
enable bit of `IER` are both set, `IIR` encodes the receive-data-available
condition; otherwise, if either of the two delta bits the code inspects
(`MSR.DCTS`, `MSR.DDSR`) is set together with the modem-status-delta enable
bit, `IIR` encodes the modem-status condition; whenever a condition matched
the interrupt line is asserted with the fixed 100-instruction delay, and
otherwise `IIR`'s no-interrupt bit is set and the line is cleared
immediately.  (The code does not inspect the `MSR.TERI` / `MSR.DRLSD` delta
bits, contrary to the original claim.) -/
theorem updateIRR_eq (s : SPState) :
    updateIRR s =
      if s.bLSR &&& LSR.DR ≠ 0 ∧ s.bIER &&& IER.RBR_AVAIL ≠ 0 then
        ({ s with bIIR := (s.bIIR &&& jsNot (IIR.NO_INT ||| IIR.INT_BITS)) ||| IIR.INT_RBR },
         IRRAction.setIRR 100)
      else if s.bMSR &&& (MSR.DCTS ||| MSR.DDSR) ≠ 0 ∧ s.bIER &&& IER.MSR_DELTA ≠ 0 then
        ({ s with bIIR := (s.bIIR &&& jsNot (IIR.NO_INT ||| IIR.INT_BITS)) ||| IIR.INT_MSR },
         IRRAction.setIRR 100)
      else ({ s with bIIR := s.bIIR ||| IIR.NO_INT }, IRRAction.clearIRR) := by
  unfold updateIRR
  by_cases h1 : s.bLSR &&& LSR.DR ≠ 0 ∧ s.bIER &&& IER.RBR_AVAIL ≠ 0 <;>
    by_cases h2 : s.bMSR &&& (MSR.DCTS ||| MSR.DDSR) ≠ 0 ∧ s.bIER &&& IER.MSR_DELTA ≠ 0 <;>
    simp [h1, h2]

theorem C1_interrupt_arbitration (s : SPState) :
    (if s.bLSR &&& LSR.DR ≠ 0 ∧ s.bIER &&& IER.RBR_AVAIL ≠ 0 then
        (updateIRR s).1.bIIR &&& (IIR.NO_INT ||| IIR.INT_BITS) = IIR.INT_RBR
      else if s.bMSR &&& (MSR.DCTS ||| MSR.DDSR) ≠ 0 ∧ s.bIER &&& IER.MSR_DELTA ≠ 0 then
        (updateIRR s).1.bIIR &&& (IIR.NO_INT ||| IIR.INT_BITS) = IIR.INT_MSR
      else (updateIRR s).1.bIIR &&& IIR.NO_INT = IIR.NO_INT)
    ∧ (updateIRR s).2 =
        (if (s.bLSR &&& LSR.DR ≠ 0 ∧ s.bIER &&& IER.RBR_AVAIL ≠ 0)
            ∨ (s.bMSR &&& (MSR.DCTS ||| MSR.DDSR) ≠ 0 ∧ s.bIER &&& IER.MSR_DELTA ≠ 0)
          then IRRAction.setIRR 100 else IRRAction.clearIRR) := by
  rw [updateIRR_eq]
  by_cases h1 : s.bLSR &&& LSR.DR ≠ 0 ∧ s.bIER &&& IER.RBR_AVAIL ≠ 0
  · simp only [if_pos h1, if_pos (Or.inl h1 :
      (s.bLSR &&& LSR.DR ≠ 0 ∧ s.bIER &&& IER.RBR_AVAIL ≠ 0)
      ∨ (s.bMSR &&& (MSR.DCTS ||| MSR.DDSR) ≠ 0 ∧ s.bIER &&& IER.MSR_DELTA ≠ 0))]
    exact ⟨iir_bits_of_code s.bIIR IIR.INT_RBR (by decide), trivial⟩
  · by_cases h2 : s.bMSR &&& (MSR.DCTS ||| MSR.DDSR) ≠ 0 ∧ s.bIER &&& IER.MSR_DELTA ≠ 0
    · simp only [if_neg h1, if_pos h2, if_pos (Or.inr h2 :
        (s.bLSR &&& LSR.DR ≠ 0 ∧ s.bIER &&& IER.RBR_AVAIL ≠ 0)
        ∨ (s.bMSR &&& (MSR.DCTS ||| MSR.DDSR) ≠ 0 ∧ s.bIER &&& IER.MSR_DELTA ≠ 0))]
      exact ⟨iir_bits_of_code s.bIIR IIR.INT_MSR (by decide), trivial⟩
    · have h12 : ¬((s.bLSR &&& LSR.DR ≠ 0 ∧ s.bIER &&& IER.RBR_AVAIL ≠ 0)
        ∨ (s.bMSR &&& (MSR.DCTS ||| MSR.DDSR) ≠ 0 ∧ s.bIER &&& IER.MSR_DELTA ≠ 0)) := by
        rintro (h | h) <;> [exact h1 h; exact h2 h]
      simp only [if_neg h1, if_neg h2, if_neg h12]
      exact ⟨lor_one_and_one s.bIIR, trivial⟩

/-- C1 (counterexample): in a state where only the `MSR.TERI` delta bit is
set and `IER` enables modem-status-delta interrupts (receive condition not
pending), the original claim predicts a modem-status interrupt with the line
asserted; `updateIRR` instead sets the no-interrupt bit and clears the line
immediately, because the code inspects only `MSR.DCTS | MSR.DDSR`. -/
theorem C1_interrupt_arbitration_cx :
    let s0 : SPState := { resetState with bMSR := MSR.TERI, bIER := IER.MSR_DELTA }
    s0.bMSR &&& (MSR.DCTS ||| MSR.DDSR ||| MSR.TERI ||| MSR.DRLSD) ≠ 0
    ∧ s0.bIER &&& IER.MSR_DELTA ≠ 0
    ∧ s0.bLSR &&& LSR.DR = 0
    ∧ (updateIRR s0).2 ≠ IRRAction.setIRR 100
    ∧ (updateIRR s0).2 = IRRAction.clearIRR
    ∧ (updateIRR s0).1.bIIR &&& IIR.NO_INT = IIR.NO_INT := by decide

/-- C5 (amended): reading `MSR` returns its pre-clear value and clears the
`DCTS` and `DDSR` delta bits only (not `TERI`/`DRLSD`); all bits above bit 1
are unchanged, and no other register operation of the core modifies `MSR` at
all. -/
theorem C5_msr_read (s : SPState) (h : s.bMSR < 2 ^ 32) :
    (inMSR s).1 = s.bMSR
    ∧ (inMSR s).2.bMSR &&& MSR.DCTS = 0
    ∧ (inMSR s).2.bMSR &&& MSR.DDSR = 0
    ∧ (inMSR s).2.bMSR >>> 2 = s.bMSR >>> 2
    ∧ (∀ i, 2 ≤ i → ((inMSR s).2.bMSR).testBit i = s.bMSR.testBit i)
    ∧ (∀ s' : SPState, (advanceRBR s').1.bMSR = s'.bMSR)
    ∧ (∀ s' : SPState, (inRBR s').2.1.bMSR = s'.bMSR)
    ∧ (∀ (accepts : Nat → Bool) (s' : SPState) (b : Nat), (outTHR accepts s' b).1.bMSR = s'.bMSR)
    ∧ (∀ (s' : SPState) (b : Nat), (outIER s' b).bMSR = s'.bMSR)
    ∧ (∀ (s' : SPState) (b : Nat), (outLCR s' b).bMSR = s'.bMSR)
    ∧ (∀ (m : RS232M) (s' : SPState) (b : Nat), (outMCR m s' b).1.bMSR = s'.bMSR)
    ∧ (∀ (d : RData) (s' : SPState), (receiveData d s').1.bMSR = s'.bMSR) := by
  have hMSRpres : ∀ s' : SPState, (updateIRR s').1.bMSR = s'.bMSR := by
    intro s'
    rw [updateIRR_eq]
    split <;> [rfl; skip]
    split <;> rfl
  have hAdv : ∀ s' : SPState, (advanceRBR s').1.bMSR = s'.bMSR := by
    intro s'
    unfold advanceRBR
    rw [hMSRpres]
    rcases s'.abReceive with _ | ⟨b, rest⟩
    · rfl
    · dsimp only
      split <;> rfl
  refine ⟨rfl, ?_, ?_, ?_, ?_, hAdv, ?_, ?_, ?_, ?_, ?_, ?_⟩
  · exact land_jsNot_land s.bMSR _ _ (by decide)
  · exact land_jsNot_land s.bMSR _ _ (by decide)
  · exact land_jsNot_shiftRight s.bMSR _ 2 h (by decide)
  · intro i hi
    exact testBit_land_jsNot s.bMSR _ 2 i h (by decide) hi
  · intro s'
    unfold inRBR
    dsimp only
    rw [hAdv]
  · intro accepts s' b
    unfold outTHR
    split
    · rfl
    · split <;> rfl
  · intro s' b
    unfold outIER
    split <;> rfl
  · intro s' b
    rfl
  · intro m s' b
    unfold outMCR
    dsimp only
    repeat' split
    all_goals rfl
  · intro d s'
    unfold receiveData
    rcases d with b | cs | bs <;> dsimp only <;> rw [hAdv]

/-- C5 (witness): `C5_msr_read` applied at the reset state. -/
theorem C5_msr_read_witness :
    resetState.bMSR < 2 ^ 32 ∧ (inMSR resetState).1 = resetState.bMSR :=
  ⟨by decide, (C5_msr_read resetState (by decide)).1⟩

/-- C5 (counterexample): in a state whose `MSR` holds the `TERI` and `DRLSD`
delta bits, reading `MSR` leaves both set, while the original claim says a
read clears all four delta bits. -/
theorem C5_msr_read_cx :
    let s0 : SPState := { resetState with bMSR := MSR.TERI ||| MSR.DRLSD }
    (inMSR s0).2.bMSR &&& MSR.TERI ≠ 0 ∧ (inMSR s0).2.bMSR &&& MSR.DRLSD ≠ 0 := by decide

theorem updateIRR_fields (s : SPState) :
    (updateIRR s).1.bRBR = s.bRBR ∧ (updateIRR s).1.bLSR = s.bLSR
    ∧ (updateIRR s).1.abReceive = s.abReceive ∧ (updateIRR s).1.bLCR = s.bLCR
    ∧ (updateIRR s).1.bMCR = s.bMCR ∧ (updateIRR s).1.fNullModem = s.fNullModem
    ∧ (updateIRR s).1.updateStatus = s.updateStatus
    ∧ (updateIRR s).1.connection = s.connection
    ∧ (updateIRR s).1.sendData = s.sendData
    ∧ (updateIRR s).1.wDL = s.wDL ∧ (updateIRR s).1.bTHR = s.bTHR
    ∧ (updateIRR s).1.bIER = s.bIER := by
  rw [updateIRR_eq]
  repeat' split
  all_goals simp

theorem advanceRBR_dr_set (s : SPState) (hDR : s.bLSR &&& LSR.DR ≠ 0) :
    (advanceRBR s).1 = (updateIRR s).1 := by
  unfold advanceRBR
  cases hq : s.abReceive with
  | nil => rfl
  | cons b rest => simp only [hq, if_neg hDR]

theorem advanceRBR_stage (s : SPState) (b : Nat) (rest : List Nat)
    (hq : s.abReceive = b :: rest) (hDR : s.bLSR &&& LSR.DR = 0) :
    (advanceRBR s).1 =
      (updateIRR { s with bRBR := b, abReceive := rest, bLSR := s.bLSR ||| LSR.DR }).1 := by
  unfold advanceRBR
  simp only [hq, if_pos hDR]

/-- C2: the one-deep holding-register discipline.  While `LSR.DR` is set,
delivering a burst of bytes leaves `RBR` and `LSR` untouched and queues the
whole backlog behind the staged byte; a single read of `RBR` then returns
the staged byte, stages exactly the head of the backlog (decrementing it by
one), and leaves `LSR.DR` set again. -/
theorem C2_rbr_one_deep (s : SPState) (b : Nat) (rest : List Nat)
    (hDR : s.bLSR &&& LSR.DR ≠ 0) (hQ : s.abReceive = [])
    (hDLAB : ¬s.bLCR &&& LCR.DLAB ≠ 0) :
    (receiveData (RData.arr (b :: rest)) s).1.bRBR = s.bRBR
    ∧ (receiveData (RData.arr (b :: rest)) s).1.abReceive = b :: rest
    ∧ (receiveData (RData.arr (b :: rest)) s).1.bLSR = s.bLSR
    ∧ (inRBR (receiveData (RData.arr (b :: rest)) s).1).1 = s.bRBR
    ∧ (inRBR (receiveData (RData.arr (b :: rest)) s).1).2.1.bRBR = b
    ∧ (inRBR (receiveData (RData.arr (b :: rest)) s).1).2.1.abReceive = rest
    ∧ (inRBR (receiveData (RData.arr (b :: rest)) s).1).2.1.bLSR &&& LSR.DR ≠ 0 := by
  have hpush : (receiveData (RData.arr (b :: rest)) s).1
      = (updateIRR { s with abReceive := s.abReceive ++ (b :: rest) }).1 := by
    unfold receiveData
    dsimp only
    exact advanceRBR_dr_set _ hDR
  obtain ⟨hR, hL, hA, hC, -⟩ := updateIRR_fields { s with abReceive := s.abReceive ++ (b :: rest) }
  have h1 : (receiveData (RData.arr (b :: rest)) s).1.bRBR = s.bRBR := by rw [hpush, hR]
  have h2 : (receiveData (RData.arr (b :: rest)) s).1.abReceive = b :: rest := by
    rw [hpush, hA, hQ]; rfl
  have h3 : (receiveData (RData.arr (b :: rest)) s).1.bLSR = s.bLSR := by rw [hpush, hL]
  have h4 : (receiveData (RData.arr (b :: rest)) s).1.bLCR = s.bLCR := by rw [hpush, hC]
  refine ⟨h1, h2, h3, ?_, ?_, ?_, ?_⟩
  · unfold inRBR
    dsimp only
    rw [if_neg (by rw [h4]; exact hDLAB), h1]
  · unfold inRBR
    dsimp only
    rw [advanceRBR_stage _ b rest (by rw [h2]) (by rw [h3]; exact land_jsNot_land s.bLSR _ _ (by decide))]
    exact (updateIRR_fields _).1
  · unfold inRBR
    dsimp only
    rw [advanceRBR_stage _ b rest (by rw [h2]) (by rw [h3]; exact land_jsNot_land s.bLSR _ _ (by decide))]
    exact ((updateIRR_fields _).2.2.1).trans rfl
  · unfold inRBR
    dsimp only
    rw [advanceRBR_stage _ b rest (by rw [h2]) (by rw [h3]; exact land_jsNot_land s.bLSR _ _ (by decide))]
    rw [(updateIRR_fields _).2.1]
    dsimp only
    rw [show LSR.DR = 1 from rfl, lor_one_and_one]
    decide

/-- C2 (witness): `C2_rbr_one_deep` on a device with byte `0x10` staged
(`LSR.DR` set) and bytes `0x20, 0x30` pushed while it is staged. -/
theorem C2_rbr_one_deep_witness :
    let s0 : SPState := { resetState with bRBR := 0x10, bLSR := 0x61 }
    (receiveData (RData.arr [0x20, 0x30]) s0).1.bRBR = 0x10
    ∧ (inRBR (receiveData (RData.arr [0x20, 0x30]) s0).1).2.1.bRBR = 0x20
    ∧ (inRBR (receiveData (RData.arr [0x20, 0x30]) s0).1).2.1.abReceive = [0x30] := by
  have h := C2_rbr_one_deep { resetState with bRBR := 0x10, bLSR := 0x61 } 0x20 [0x30]
    (by decide) (by decide) (by decide)
  exact ⟨h.1, h.2.2.2.2.1, h.2.2.2.2.2.1⟩

theorem outMCR_eq (m : RS232M) (s : SPState) (bOut : Nat) :
    outMCR m s bOut =
      ({ s with bMCR := bOut },
       if (bOut ^^^ s.bMCR) &&& (MCR.DTR ||| MCR.RTS) ≠ 0 then
         if s.updateStatus.isSome then some (claimPins m s.fNullModem bOut) else none
       else none) := by
  by_cases hd : (bOut ^^^ s.bMCR) &&& (MCR.DTR ||| MCR.RTS) ≠ 0 <;>
    by_cases hu : s.updateStatus.isSome <;>
    by_cases hn : s.fNullModem <;>
    simp [outMCR, claimPins, hd, hu, hn]

/-- C3: for every sequence of MCR writes on a device with a connected peer
whose `updateStatus` capability exists, the notifications delivered to the
peer are exactly those of the spec's mapping: a write changing DTR or RTS
delivers the crossover translation in null-modem mode (RTS to the peer's
clear-to-send mask, DTR to data-set-ready plus carrier-detect) and the
straight-through translation otherwise; a write changing neither delivers
nothing. -/
theorem C3_mcr_crossover (m : RS232M) (s : SPState) (ws : List Nat)
    (hConn : s.connection.isSome) (hUS : s.updateStatus.isSome) :
    (runMCRWrites m s ws).2 = claimNotifications m s.fNullModem s.bMCR ws := by
  induction ws generalizing s with
  | nil => rfl
  | cons w rest ih =>
      have ih' := ih { s with bMCR := w } hConn hUS
      unfold runMCRWrites claimNotifications
      dsimp only
      rw [outMCR_eq]
      by_cases hd : (w ^^^ s.bMCR) &&& (MCR.DTR ||| MCR.RTS) ≠ 0
      · simp only [if_pos hd, if_pos hUS]
        rw [ih']
        rfl
      · simp only [if_neg hd]
        rw [ih']
        rfl

/-- C3 (witness): `C3_mcr_crossover` on a connected null-modem device with
the standard mask set, across writes that raise RTS, repeat the same value,
raise DTR, and drop both. -/
theorem C3_mcr_crossover_witness :
    let m : RS232M := { rts := 0x10, cts := 0x20, dsr := 0x40, cd := 0x100, dtr := 0x100000 }
    let s0 : SPState := { resetState with connection := some 1, updateStatus := some 1 }
    (runMCRWrites m s0 [0x02, 0x02, 0x03, 0x00]).2 = [0x20, 0x160, 0] := by
  exact (C3_mcr_crossover
    { rts := 0x10, cts := 0x20, dsr := 0x40, cd := 0x100, dtr := 0x100000 }
    { resetState with connection := some 1, updateStatus := some 1 }
    [0x02, 0x02, 0x03, 0x00] (by decide) (by decide)).trans (by decide)

theorem lor_low_byte (x b : Nat) (hb : b < 256) : ((x &&& jsNot 0xFF) ||| b) &&& 0xFF = b := by
  rw [land_or_distrib, land_jsNot_land x _ _ (by decide), Nat.zero_or]
  have h : (0xFF : Nat) = 2 ^ 8 - 1 := by norm_num
  rw [h, Nat.and_pow_two_sub_one_eq_mod]
  exact Nat.mod_eq_of_lt hb

theorem set_flags_and (x : Nat) :
    ((x &&& jsNot 0x60) ||| 0x60) &&& 0x60 = 0x60 := by
  rw [land_or_distrib, land_jsNot_land x _ _ (by decide), Nat.zero_or, Nat.and_self]

theorem set_flags_keep (x : Nat) :
    ((x &&& jsNot 0x60) ||| 0x60) &&& jsNot 0x60 = x &&& jsNot 0x60 := by
  rw [land_or_distrib, Nat.and_assoc, Nat.and_self]
  have h : (0x60 : Nat) &&& jsNot 0x60 = 0 := by decide
  rw [h, Nat.or_zero]

theorem outTHR_eq (accepts : Nat → Bool) (s : SPState) (bOut : Nat) :
    outTHR accepts s bOut =
      if s.bLCR &&& LCR.DLAB ≠ 0 then
        ({ s with wDL := (s.wDL &&& jsNot 0xFF) ||| bOut }, [])
      else if accepts bOut then
        ({ s with bTHR := bOut,
                  bLSR := (s.bLSR &&& jsNot (LSR.THRE ||| LSR.TSRE)) ||| (LSR.THRE ||| LSR.TSRE) },
         [bOut])
      else
        ({ s with bTHR := bOut, bLSR := s.bLSR &&& jsNot (LSR.THRE ||| LSR.TSRE) }, [bOut]) := by
  unfold outTHR
  by_cases hD : s.bLCR &&& LCR.DLAB ≠ 0 <;> by_cases ha : accepts bOut <;> simp [hD, ha]

/-- C4: a write to port offset 0 with `LCR.DLAB` set updates only the low
byte of the divisor latch (high byte, `THR`, `LSR` and the transmit sink are
untouched); with `DLAB` clear the byte is stored in `THR`, handed to the
transmit sink, and `LSR.THRE`/`TSRE` end up set exactly when the sink
reported synchronous delivery, all other `LSR` bits unchanged. -/
theorem C4_thr_write (accepts : Nat → Bool) (s : SPState) (bOut : Nat)
    (hb : bOut < 256) (hw : s.wDL < 65536) :
    if s.bLCR &&& LCR.DLAB ≠ 0 then
      (outTHR accepts s bOut).1.wDL &&& 0xFF = bOut
      ∧ (outTHR accepts s bOut).1.wDL >>> 8 = s.wDL >>> 8
      ∧ (outTHR accepts s bOut).1.bTHR = s.bTHR
      ∧ (outTHR accepts s bOut).1.bLSR = s.bLSR
      ∧ (outTHR accepts s bOut).2 = []
    else
      (outTHR accepts s bOut).1.bTHR = bOut
      ∧ (outTHR accepts s bOut).2 = [bOut]
      ∧ ((outTHR accepts s bOut).1.bLSR &&& (LSR.THRE ||| LSR.TSRE)
          = if accepts bOut then LSR.THRE ||| LSR.TSRE else 0)
      ∧ (outTHR accepts s bOut).1.bLSR &&& jsNot (LSR.THRE ||| LSR.TSRE)
          = s.bLSR &&& jsNot (LSR.THRE ||| LSR.TSRE) := by
  have h60 : LSR.THRE ||| LSR.TSRE = 0x60 := by decide
  by_cases hD : s.bLCR &&& LCR.DLAB ≠ 0
  · rw [if_pos hD, outTHR_eq, if_pos hD]
    exact ⟨lor_low_byte s.wDL bOut hb,
           land_jsNot_or_shiftRight s.wDL 0xFF bOut 8 (by omega) (by decide) hb, rfl, rfl, rfl⟩
  · rw [if_neg hD]
    by_cases ha : accepts bOut
    · rw [outTHR_eq, if_neg hD, if_pos ha, if_pos ha]
      refine ⟨rfl, rfl, ?_, ?_⟩
      · show ((s.bLSR &&& jsNot (LSR.THRE ||| LSR.TSRE)) ||| (LSR.THRE ||| LSR.TSRE))
            &&& (LSR.THRE ||| LSR.TSRE) = LSR.THRE ||| LSR.TSRE
        rw [h60]
        exact set_flags_and s.bLSR
      · show ((s.bLSR &&& jsNot (LSR.THRE ||| LSR.TSRE)) ||| (LSR.THRE ||| LSR.TSRE))
            &&& jsNot (LSR.THRE ||| LSR.TSRE) = s.bLSR &&& jsNot (LSR.THRE ||| LSR.TSRE)
        rw [h60]
        exact set_flags_keep s.bLSR
    · rw [outTHR_eq, if_neg hD, if_neg ha, if_neg ha]
      refine ⟨rfl, rfl, ?_, ?_⟩
      · show (s.bLSR &&& jsNot (LSR.THRE ||| LSR.TSRE)) &&& (LSR.THRE ||| LSR.TSRE) = 0
        rw [h60]
        exact land_jsNot_land s.bLSR _ _ (by decide)
      · show (s.bLSR &&& jsNot (LSR.THRE ||| LSR.TSRE)) &&& jsNot (LSR.THRE ||| LSR.TSRE)
            = s.bLSR &&& jsNot (LSR.THRE ||| LSR.TSRE)
        rw [Nat.and_assoc, Nat.and_self]

/-- C4 (witness): `C4_thr_write` at a device with `DLAB` clear and an
accepting sink: the byte `0x41` lands in `THR`, is handed to the sink once,
and `THRE`/`TSRE` are set afterwards. -/
theorem C4_thr_write_witness :
    (outTHR (fun _ => true) resetState 0x41).1.bTHR = 0x41
    ∧ (outTHR (fun _ => true) resetState 0x41).2 = [0x41]
    ∧ (outTHR (fun _ => true) resetState 0x41).1.bLSR &&& (LSR.THRE ||| LSR.TSRE)
        = LSR.THRE ||| LSR.TSRE := by
  have h := C4_thr_write (fun _ => true) resetState 0x41 (by decide) (by decide)
  rw [if_neg (by decide)] at h
  refine ⟨h.1, h.2.1, ?_⟩
  rw [h.2.2.1, if_pos rfl]

/-- C6: snapshot round-trip.  For every device state (hence after any
sequence of register writes), serializing, restoring the snapshot into a
fresh device via `initState`, and serializing the result yields the identical
ordered sequence `[rbr, thr, divisorLatch, ier, iir, lcr, mcr, lsr, msr,
pendingReceiveQueue]`. -/
theorem C6_snapshot_roundtrip (s : SPState) :
    saveRegistersJS (initStateJS (some (saveRegisters s))).1 = saveRegisters s := rfl

/-- C7 (counterexample): restoring from a buffer whose register array has
only two entries (instead of the expected ten) reports success, while the
claim says a shape mismatch makes the restore fail. -/
theorem C7_restore_cx : (restoreJS [[JSVal.num 1, JSVal.num 2]]).2 ≠ false := by decide

/-- C7 (amended): the restore path performs no shape validation at all —
`initState` assigns whatever entries exist (missing entries become
`undefined`) and reports success for every input, including the two-entry
buffer of the counterexample. -/
theorem C7_restore_no_validation :
    (∀ data : List (List JSVal), (restoreJS data).2 = true)
    ∧ (restoreJS [[JSVal.num 1, JSVal.num 2]]).1.bRBR = JSVal.num 1
    ∧ (restoreJS [[JSVal.num 1, JSVal.num 2]]).1.wDL = JSVal.undef
    ∧ (restoreJS [[JSVal.num 1, JSVal.num 2]]).1.abReceive = JSVal.undef :=
  ⟨fun _ => rfl, by decide, by decide, by decide⟩

/-- C9: connection resolution is idempotent — when a connection is already
established, `initConnection` returns the state unchanged: the peer
reference, both capability references and the null-modem flag are
untouched. -/
theorem C9_initConnection_idempotent (env : ConnEnv) (f : Bool) (s : SPState) (c : Nat)
    (h : s.connection = some c) : initConnection env f s = s := by
  simp [initConnection, h]

/-- C9 (witness): `C9_initConnection_idempotent` on an already-connected
device, with a populated environment that would otherwise rewire it. -/
theorem C9_initConnection_idempotent_witness :
    initConnection
      { sConnection := some "com2->demo.com1", idComponent := "com2",
        lookup := fun _ => some { pid := 9, exports := none } }
      false { resetState with connection := some 5, sendData := some 6 }
      = { resetState with connection := some 5, sendData := some 6 } :=
  C9_initConnection_idempotent _ false _ 5 rfl

/-- C8 (counterexample): with no nonzero tab width configured but a
beginning-of-line filler byte configured, transmitting a tab at column zero
emits the filler character — visible output, where the claim says the tab
produces none. -/
theorem C8_tab_cx :
    (transmitEcho toASCIICode_spec { tabSize := 0, charBOL := 0x2A }
      { value := [], iLogicalCol := 0 } 0x09).value ≠ [] := by decide

/-- C8 (amended): transmitting the tab byte on the echo surface always
advances the logical column by `tabWidth - (column % tabWidth)` with width
defaulting to 8 when none is configured; when a nonzero tab width is
configured the tab itself appends exactly that many spaces, and otherwise it
appends no characters of its own — but in both cases a configured
beginning-of-line filler is still emitted when the column is zero. -/
theorem C8_tab_expansion (cfg : EchoCfg) (st : EchoState) :
    (transmitEcho toASCIICode_spec cfg st 0x09).iLogicalCol
      = st.iLogicalCol
        + ((if cfg.tabSize = 0 then 8 else cfg.tabSize)
            - st.iLogicalCol % (if cfg.tabSize = 0 then 8 else cfg.tabSize))
    ∧ (transmitEcho toASCIICode_spec cfg st 0x09).value
      = st.value
        ++ (if cfg.charBOL ≠ 0 ∧ st.iLogicalCol = 0 then [cfg.charBOL] else [])
        ++ (if cfg.tabSize ≠ 0 then
              List.replicate
                ((if cfg.tabSize = 0 then 8 else cfg.tabSize)
                  - st.iLogicalCol % (if cfg.tabSize = 0 then 8 else cfg.tabSize)) 0x20
            else []) := by
  have hT : 0 < (if cfg.tabSize = 0 then 8 else cfg.tabSize) := by
    by_cases ct : cfg.tabSize = 0 <;> simp [ct]
    exact Nat.pos_of_ne_zero ct
  have hn : (if cfg.tabSize = 0 then 8 else cfg.tabSize)
      - st.iLogicalCol % (if cfg.tabSize = 0 then 8 else cfg.tabSize) ≠ 0 := by
    have := Nat.mod_lt st.iLogicalCol hT
    omega
  simp only [transmitEcho, toASCIICode_spec]
  norm_num
  simp only [hn, not_false_iff, and_true]
  by_cases cb : ¬cfg.charBOL = 0 ∧ st.iLogicalCol = 0
  · simp [cb]
  · simp [cb]

theorem updateIRR_bMSR (s : SPState) : (updateIRR s).1.bMSR = s.bMSR := by
  rw [updateIRR_eq]
  repeat' split
  all_goals rfl

theorem advanceRBR_bMSR (s : SPState) : (advanceRBR s).1.bMSR = s.bMSR := by
  unfold advanceRBR
  rw [updateIRR_bMSR]
  rcases s.abReceive with _ | ⟨b, rest⟩
  · rfl
  · dsimp only
    split <;> rfl

theorem inRBR_bMSR (s : SPState) : (inRBR s).2.1.bMSR = s.bMSR := by
  unfold inRBR
  dsimp only
  rw [advanceRBR_bMSR]

theorem outTHR_bMSR (accepts : Nat → Bool) (s : SPState) (b : Nat) :
    (outTHR accepts s b).1.bMSR = s.bMSR := by
  unfold outTHR
  repeat' split
  all_goals rfl

theorem outIER_bMSR (s : SPState) (b : Nat) : (outIER s b).bMSR = s.bMSR := by
  unfold outIER
  split <;> rfl

theorem outMCR_bMSR (m : RS232M) (s : SPState) (b : Nat) :
    (outMCR m s b).1.bMSR = s.bMSR := by
  rw [outMCR_eq]

theorem receiveData_bMSR (d : RData) (s : SPState) :
    (receiveData d s).1.bMSR = s.bMSR := by
  unfold receiveData
  rcases d with b | cs | bs <;> dsimp only <;> rw [advanceRBR_bMSR]

theorem initConnection_bMSR (env : ConnEnv) (f : Bool) (s : SPState) :
    (initConnection env f s).bMSR = s.bMSR := by
  unfold initConnection
  repeat' split
  all_goals rfl

theorem lor_vanish_12 (y c : Nat) (hy : y &&& 12 = 0) (hc : c &&& 12 = 0) :
    (y ||| c) &&& 12 = 0 := by
  rw [land_or_distrib, hy, hc]
  decide

theorem receiveStatus_push (s : SPState) (v : Nat) (hv : v &&& 12 = 0) :
    (if s.bMSR ≠ v then
        ((updateIRR { s with bMSR := v }).1, some (updateIRR { s with bMSR := v }).2)
      else ({ s with bMSR := v }, (none : Option IRRAction))).1.bMSR &&& 12 = 0 := by
  split
  · rw [updateIRR_bMSR]
    exact hv
  · exact hv

theorem receiveStatus_bMSR_12 (m : RS232M) (pins : Nat) (s : SPState)
    (h : s.bMSR &&& 12 = 0) : (receiveStatus m pins s).1.bMSR &&& 12 = 0 := by
  have hbase : (s.bMSR &&& jsNot (MSR.CTS ||| MSR.DSR)) &&& 12 = 0 := by
    rw [land_jsNot_keep s.bMSR _ _ (by decide)]
    exact h
  unfold receiveStatus
  dsimp only
  by_cases hcp : pins &&& m.cts ≠ 0 <;> by_cases hdp : pins &&& m.dsr ≠ 0
  · rw [if_pos hdp, if_pos hcp]
    exact receiveStatus_push s _
      (lor_vanish_12 _ _ (lor_vanish_12 _ _ hbase (by decide)) (by decide))
  · rw [if_neg hdp, if_pos hcp]
    exact receiveStatus_push s _ (lor_vanish_12 _ _ hbase (by decide))
  · rw [if_pos hdp, if_neg hcp]
    exact receiveStatus_push s _ (lor_vanish_12 _ _ hbase (by decide))
  · rw [if_neg hdp, if_neg hcp]
    exact receiveStatus_push s _ hbase

/-- C10: in every state reachable from hardware reset without a snapshot
restore, the `MSR.TERI` and `MSR.DRLSD` delta bits are clear — reset
initializes `MSR` to CTS and DSR only, `receiveStatus` (the sole external
mutator of `MSR`) only ever touches the CTS, DSR, delta-CTS and delta-DSR
bits, and the `MSR` read only clears bits. -/
theorem C10_msr_delta_invariant (s : SPState) (h : Reachable s) :
    s.bMSR &&& (MSR.TERI ||| MSR.DRLSD) = 0 := by
  have h12 : MSR.TERI ||| MSR.DRLSD = 12 := by decide
  rw [h12]
  induction h with
  | reset => decide
  | stepInRBR _ ih => rw [inRBR_bMSR]; exact ih
  | stepInMSR _ ih =>
      show ((inMSR _).2.bMSR) &&& 12 = 0
      unfold inMSR
      dsimp only
      rw [land_jsNot_keep _ _ _ (by decide)]
      exact ih
  | stepOutTHR accepts b _ ih => rw [outTHR_bMSR]; exact ih
  | stepOutIER b _ ih => rw [outIER_bMSR]; exact ih
  | stepOutLCR b _ ih => exact ih
  | stepOutMCR m b _ ih => rw [outMCR_bMSR]; exact ih
  | stepReceiveData d _ ih => rw [receiveData_bMSR]; exact ih
  | stepReceiveStatus m pins _ ih => exact receiveStatus_bMSR_12 m pins _ ih
  | stepInitConnection env f _ ih => rw [initConnection_bMSR]; exact ih
  | stepAdvanceRBR _ ih => rw [advanceRBR_bMSR]; exact ih

/-- C10 (witness): `C10_msr_delta_invariant` at the reset state itself. -/
theorem C10_msr_delta_invariant_witness :
    resetState.bMSR &&& (MSR.TERI ||| MSR.DRLSD) = 0 :=
  C10_msr_delta_invariant resetState Reachable.reset
